import Mathlib

/-!
Verification of the `worker-wp-github-release-api` Cloudflare Worker.

The source ships three historical revisions of the same worker:

* revision V1: the first `handleRequest` in `src/index.js` (path-based parsing,
  `getLatestRelease` / `getRelease` helpers, dual `{current, latest}` version payload);
* revision V2: the second `handleRequest` in `src/index.js` (path-based parsing via
  indexing, inline release resolution, flat version payload);
* revision Q: `src/unnamed/part_001` (query-parameter parsing via the `basename`
  parameter, inline release resolution, flat version payload).

Strings from the JavaScript source are modelled as `List Char`.  The remote GitHub
API and the raw-content endpoint are modelled as an explicit environment (`Remote`)
mapping each outbound request the worker can make to the status and parsed JSON body
it answers with.  JavaScript `undefined` is modelled with `Option`, and thrown values
(strings, parsed JSON bodies, `TypeError`s from property access on `undefined`) with
the `JsThrow` type, so that fallible code returns `Except JsThrow`.
-/

set_option autoImplicit false

namespace WpRelease

/-- JavaScript strings, modelled as lists of characters. -/
abbrev Str := List Char

/-- A minimal JSON value model, used for request/response bodies.  JavaScript
objects are association lists in source order; `JSON.stringify` drops fields whose
value is `undefined`, which we model by omitting the field at construction time. -/
inductive Json where
  | null : Json
  | bool : Bool → Json
  | num : Int → Json
  | str : Str → Json
  | arr : List Json → Json
  | obj : List (Str × Json) → Json

/-- A release asset, as returned by the GitHub API (only the field the worker reads). -/
structure Asset where
  browser_download_url : Str
deriving DecidableEq, Repr

/-- A GitHub release record (only the fields the worker reads).  `published_at` is
`Option` because the worker guards it with `|| ''`. -/
structure Release where
  tag_name : Str
  published_at : Option Str
  assets : List Asset
deriving DecidableEq, Repr

/-- Values thrown by the JavaScript code: plain strings (`throw 'No releases
available!'`), parsed JSON bodies (`throw releases`), and runtime `TypeError`s
from property access on `undefined`. -/
inductive JsThrow where
  | str : Str → JsThrow
  | json : Json → JsThrow
  | typeError : JsThrow

/-- JavaScript truthiness for string-or-undefined values: `undefined` and the
empty string are falsy. -/
def jsTruthy : Option Str → Bool
  | none => false
  | some s => !s.isEmpty

/-- JavaScript `a || b` for a string-or-undefined left operand and a string default. -/
def jsOr (a : Option Str) (b : Str) : Str :=
  if jsTruthy a then a.getD [] else b

/-- Template-literal coercion of a possibly-`undefined` value: `undefined`
stringifies to the text `undefined` inside a template literal. -/
def jsStr : Option Str → Str
  | none => "undefined".data
  | some s => s

/-- Template-literal coercion of a possibly-`null` value (`searchParams.get`
returns `null` for an absent parameter, which stringifies to `null`). -/
def jsStrNull : Option Str → Str
  | none => "null".data
  | some s => s

/-- The JavaScript whitespace characters recognised by `String.prototype.trim`
(ASCII whitespace plus the common Unicode ones; exotic Unicode space separators are
not needed by any input in this development). -/
def isJsWhitespace (c : Char) : Bool :=
  c = ' ' || c = '\t' || c = '\n' || c = '\r' || c = '\x0b' || c = '\x0c' ||
    c = '\u00A0' || c = '\uFEFF'

/-- JavaScript line terminators, which the regex metacharacter `.` does not match. -/
def isLineTerminator (c : Char) : Bool :=
  c = '\n' || c = '\r'

/-- `String.prototype.trim`: drop trailing whitespace (via reverse), then leading. -/
def jsTrim (s : Str) : Str :=
  ((s.reverse.dropWhile isJsWhitespace).reverse).dropWhile isJsWhitespace

/-- `String.prototype.split` with a single-character separator:
`"".split(c) = [""]`, and separators delimit (possibly empty) fields. -/
def jsSplit (c : Char) : Str → List Str
  | [] => [[]]
  | x :: xs =>
    if x = c then [] :: jsSplit c xs
    else
      match jsSplit c xs with
      | [] => [[x]]
      | p :: ps => (x :: p) :: ps

/-- `s.substring(s.lastIndexOf(c) + 1)`: the suffix after the last occurrence of
`c`, or all of `s` when `c` does not occur (`lastIndexOf` returns `-1`). -/
def substringAfterLast (c : Char) (s : Str) : Str :=
  (s.reverse.takeWhile (fun x => x ≠ c)).reverse

/-! ## Header extraction (`getFileHeaders`, identical in all three revisions) -/

/-- The fixed whitelist of WordPress header names scanned by `getFileHeaders`. -/
def headerNames : List Str :=
  ["Author".data, "Author URI".data, "Description".data, "Domain Path".data,
   "License".data, "License URI".data, "Plugin Name".data, "Plugin URI".data,
   "Requires at least".data, "Requires PHP".data, "Tested up to".data,
   "Text Domain".data, "Theme Name".data, "Theme URI".data, "Version".data]

/-- Model of `new RegExp(name + ':(.*)', 'gm').exec(text)`: scan for the leftmost
occurrence of the literal `name ++ ":"` and capture the remainder of that line
(greedy `.*`, which stops at a line terminator); `none` when there is no match. -/
def execHeader (name : Str) : Str → Option Str
  | [] => none
  | x :: xs =>
    if (name ++ [':']).isPrefixOf (x :: xs) then
      some (((x :: xs).drop (name.length + 1)).takeWhile (fun c => !isLineTerminator c))
    else
      execHeader name xs

/-- The index of the leftmost occurrence of `pat` in a string, if any.  This is an
independent characterisation used to state the first-match property of `execHeader`. -/
def matchIndex (pat : Str) : Str → Option Nat
  | [] => if pat.isPrefixOf ([] : Str) then some 0 else none
  | x :: xs =>
    if pat.isPrefixOf (x :: xs) then some 0
    else (matchIndex pat xs).map (fun i => i + 1)

/-- First-match lookup in an association list, modelling JavaScript property read
on the object built by `getFileHeaders` (keys are never duplicated). -/
def findHeader (k : Str) : List (Str × Str) → Option Str
  | [] => none
  | (k', v) :: rest => if k' = k then some v else findHeader k rest

/-- The accumulating loop of `getFileHeaders`: `headers.forEach(...)`, inserting
`fileHeaders[header] = matches[1].trim()` for each header with a regex match. -/
def buildHeaders (names : List Str) (text : Str) (acc : List (Str × Str)) :
    List (Str × Str) :=
  match names with
  | [] => acc
  | n :: rest =>
    match execHeader n text with
    | some captured => buildHeaders rest text (acc ++ [(n, jsTrim captured)])
    | none => buildHeaders rest text acc

/-- `getFileHeaders(fileContents)`: scan the fixed header whitelist over the file
text, keeping the trimmed first-match capture of each header that occurs. -/
def getFileHeaders (text : Str) : List (Str × Str) :=
  buildHeaders headerNames text []

/-! ## Requests, responses and the remote environment -/

/-- The incoming HTTP request: its full URL string (the cache key), its path, and
its query parameters (`url.searchParams.get`, `none` when the parameter is absent). -/
structure Req where
  url : Str
  pathname : Str
  query : Str → Option Str

/-- `url.pathname.split('/').filter((value) => !!value)`. -/
def pathSegments (pathname : Str) : List Str :=
  (jsSplit '/' pathname).filter (fun s => !s.isEmpty)

/-- First-match field lookup in a JSON object. -/
def lookupJson (k : Str) : List (Str × Json) → Option Json
  | [] => none
  | (k', v) :: rest => if k' = k then some v else lookupJson k rest

/-- JavaScript `e.message` for a caught value: strings and non-object JSON values
have no `message` property (`undefined`); a JSON object yields its `message`
field; a `TypeError` carries a diagnostic text, abbreviated here. -/
def jsMessage : JsThrow → Option Json
  | .str _ => none
  | .typeError => some (Json.str "TypeError".data)
  | .json (Json.obj fields) => lookupJson "message".data fields
  | .json _ => none

/-- The serialisation of an asset record, for proxied bodies. -/
def Asset.toJson (a : Asset) : Json :=
  Json.obj [("browser_download_url".data, Json.str a.browser_download_url)]

/-- The serialisation of a release record, for proxied bodies. -/
def Release.toJson (r : Release) : Json :=
  Json.obj [("tag_name".data, Json.str r.tag_name),
    ("published_at".data,
      match r.published_at with
      | some s => Json.str s
      | none => Json.null),
    ("assets".data, Json.arr (r.assets.map Asset.toJson))]

/-- The parsed body answered by the release-list endpoint: either a JSON array of
release records, or any other JSON value (an error object, `null`, ...). -/
inductive ListBody where
  | arr : List Release → ListBody
  | other : Json → ListBody

/-- The JSON value a `ListBody` parses from. -/
def ListBody.toJson : ListBody → Json
  | .arr rs => Json.arr (rs.map Release.toJson)
  | .other j => j

/-- The parsed body answered by the release-by-tag endpoint. -/
inductive TagBody where
  | release : Release → TagBody
  | other : Json → TagBody

/-- The JSON value a `TagBody` parses from. -/
def TagBody.toJson : TagBody → Json
  | .release r => r.toJson
  | .other j => j

/-- `getStatusText(code)`. -/
def getStatusText (code : Nat) : Str :=
  if code = 400 then "Bad Request".data
  else if code = 404 then "Not Found".data
  else "OK".data

/-- A JSON `Response` as built by `getResponse`; the body is kept as a JSON value
(the worker serialises it with `JSON.stringify(payload, null, 2)`). -/
structure JsonResponse where
  status : Nat
  statusText : Str
  headers : List (Str × Str)
  body : Json

/-- `getResponse(payload, status)`. -/
def getResponse (payload : Json) (status : Nat) : JsonResponse :=
  { status := status
    statusText := getStatusText status
    headers := [("Content-Type".data, "application/json".data)]
    body := payload }

/-- `response.headers.append(k, v)`. -/
def appendHeader (r : JsonResponse) (k v : Str) : JsonResponse :=
  { r with headers := r.headers ++ [(k, v)] }

/-- `getErrorResponse(message, statusCode)`: the body is `{status: 'error',
message}`, and `JSON.stringify` drops `message` when it is `undefined`. -/
def getErrorResponse (message : Option Json) (statusCode : Nat) : JsonResponse :=
  getResponse
    (Json.obj (("status".data, Json.str "error".data) ::
      (match message with
       | some m => [("message".data, m)]
       | none => [])))
    statusCode

/-- A worker response: a JSON response, a `Response.redirect(url, 301)`, or the
catch-all `new Response(err.stack, {status: 500})` of the event listener. -/
inductive WResponse where
  | json : JsonResponse → WResponse
  | redirect : Str → WResponse
  | failure : JsThrow → WResponse

/-- The HTTP status code of a worker response. -/
def WResponse.status : WResponse → Nat
  | .json r => r.status
  | .redirect _ => 301
  | .failure _ => 500

/-- The observable outcome of handling one event: the response returned to the
caller, and the cache key written by `event.waitUntil(cache.put(...))`, if any. -/
structure Outcome where
  response : WResponse
  cacheWrite : Option Str

/-- The external world of one request: the edge cache and the three remote
endpoints (release list, release by tag, raw file content), each answering with an
HTTP status and a parsed body.  The tag and file endpoints are keyed by the
requested tag and file URL respectively. -/
structure Remote where
  cached : Option JsonResponse
  listStatus : Nat
  listBody : ListBody
  tagStatus : Str → Nat
  tagBody : Str → TagBody
  fileStatus : Str → Nat
  fileText : Str → Str

/-- The raw-content URL `https://raw.githubusercontent.com/{vendor}/{package}/{tag}/{file}`. -/
def rawFileUrl (vendor pkg : Option Str) (tag file : Str) : Str :=
  "https://raw.githubusercontent.com/".data ++ jsStr vendor ++ ['/'] ++ jsStr pkg ++
    ['/'] ++ tag ++ ['/'] ++ file

/-! ## Revision V1: request parsing, release resolution, payload, handler -/

/-- The request descriptor of revision V1 (`getDataFromRequest`, first version in
`src/index.js`).  Fields that can be `undefined` in JavaScript are `Option`s. -/
structure DataV1 where
  basename : Str
  file : Str
  isDownload : Bool
  pkg : Option Str
  slug : Option Str
  type : Option Str
  vendor : Option Str
  version : Option Str

/-- `getDataFromRequest` of revision V1: shift the path segments, normalise the
entity type, pop the trailing `download` segment, read the `slug` and `file` query
overrides, and derive `basename` as `{slug}/{file}`. -/
def getDataFromRequestV1 (req : Req) : DataV1 :=
  let segments := pathSegments req.pathname
  let type :=
    match segments.head? with
    | some t =>
      if t = "plugin".data ∨ t = "plugins".data then some "plugin".data
      else if t = "theme".data ∨ t = "themes".data then some "theme".data
      else some t
    | none => none
  let segments := segments.tail
  let vendor := segments.head?
  let segments := segments.tail
  let pkg := segments.head?
  let segments := segments.tail
  let isDownload := segments.contains "download".data
  let segments := if isDownload then segments.dropLast else segments
  let version := segments.head?
  let slug := if jsTruthy (req.query "slug".data) then req.query "slug".data else pkg
  let file := jsOr (req.query "file".data)
    (if type = some "theme".data then "style.css".data else jsStr pkg ++ ".php".data)
  { basename := jsStr slug ++ ['/'] ++ file
    file := file
    isDownload := isDownload
    pkg := pkg
    slug := slug
    type := type
    vendor := vendor
    version := version }

/-- The `for (release of releases)` loop of `getLatestRelease`: its loop variable
is assigned every element until a release with assets breaks the loop, so it
retains the *last* element when no release has assets, and is `undefined` only
when the list is empty. -/
def scanLoopV1 : List Release → Option Release
  | [] => none
  | [r] => some r
  | r :: r2 :: rs => if r.assets.length ≠ 0 then some r else scanLoopV1 (r2 :: rs)

/-- `getLatestRelease(data)`: fetch the release list, proxy-throw the parsed body
on a non-200 status, throw `No releases available!` when the body is missing, not
an array, or empty, then run the scan loop.  The final `if (!release)` guard fires
only when the loop variable is still `undefined`. -/
def getLatestRelease (rm : Remote) : Except JsThrow Release :=
  if rm.listStatus ≠ 200 then .error (.json rm.listBody.toJson)
  else
    match rm.listBody with
    | .other _ => .error (.str "No releases available!".data)
    | .arr [] => .error (.str "No releases available!".data)
    | .arr (r :: rs) =>
      match scanLoopV1 (r :: rs) with
      | some release => .ok release
      | none => .error (.str "No releases have release assets!".data)

/-- `getRelease(data)`: fetch the release tagged `data.version`, proxy-throw the
parsed body on a non-200 status, throw when that release has no asset. -/
def getRelease (rm : Remote) (version : Str) : Except JsThrow Release :=
  if rm.tagStatus version ≠ 200 then .error (.json (rm.tagBody version).toJson)
  else
    match rm.tagBody version with
    | .release r =>
      if r.assets.length = 0 then
        .error (.str ("Release ".data ++ version ++ " doesn\x27t have a release asset!".data))
      else .ok r
    | .other _ => .error .typeError

/-- The release-resolution step of revision V1 (`handleRequest` lines 42-47):
`data.latestRelease = await getLatestRelease(data)`, then
`data.release = data.version ? await getRelease(data) : data.latestRelease`. -/
def resolveReleasesV1 (rm : Remote) (d : DataV1) : Except JsThrow (Release × Release) :=
  match getLatestRelease rm with
  | .error e => .error e
  | .ok latestRelease =>
    if jsTruthy d.version then
      match getRelease rm (jsStr d.version) with
      | .error e => .error e
      | .ok release => .ok (latestRelease, release)
    else .ok (latestRelease, latestRelease)

/-- The response payload of revision V1, with its dual `{current, latest}`
version object.  `Option` fields are dropped by `JSON.stringify` when `none`. -/
structure PayloadV1 where
  name : Option Str
  type : Option Str
  version_current : Option Str
  version_latest : Str
  description : Str
  author_name : Str
  author_url : Str
  updated : Str
  requires_wp : Str
  requires_php : Str
  tested_wp : Str
  url : Str
  download : Str
  slug : Option Str
  basename : Option Str

/-- An object field dropped by `JSON.stringify` when its value is `undefined`. -/
def optField (k : Str) : Option Json → List (Str × Json)
  | some v => [(k, v)]
  | none => []

/-- Serialisation of the V1 payload, in source field order. -/
def PayloadV1.toJson (p : PayloadV1) : Json :=
  Json.obj (optField "name".data (p.name.map Json.str) ++
    optField "type".data (p.type.map Json.str) ++
    [("version".data, Json.obj (optField "current".data (p.version_current.map Json.str) ++
      [("latest".data, Json.str p.version_latest)])),
     ("description".data, Json.str p.description),
     ("author".data, Json.obj [("name".data, Json.str p.author_name),
       ("url".data, Json.str p.author_url)]),
     ("updated".data, Json.str p.updated),
     ("requires".data, Json.obj [("wp".data, Json.str p.requires_wp),
       ("php".data, Json.str p.requires_php)]),
     ("tested".data, Json.obj [("wp".data, Json.str p.tested_wp)]),
     ("url".data, Json.str p.url),
     ("download".data, Json.str p.download)] ++
    optField "slug".data (p.slug.map Json.str) ++
    optField "basename".data (p.basename.map Json.str))

/-- `getPayload` of revision V1.  `data.release.assets[0].browser_download_url`
throws a `TypeError` when the asset list is empty. -/
def getPayloadV1 (d : DataV1) (fh : List (Str × Str)) (latestRelease release : Release) :
    Except JsThrow PayloadV1 :=
  match release.assets with
  | [] => .error .typeError
  | a :: _ =>
    .ok { name := findHeader
            (if d.type = some "theme".data then "Theme Name".data else "Plugin Name".data) fh
          type := d.type
          version_current := findHeader "Version".data fh
          version_latest := latestRelease.tag_name
          description := (findHeader "Description".data fh).getD []
          author_name := (findHeader "Author".data fh).getD []
          author_url := (findHeader "Author URI".data fh).getD []
          updated := release.published_at.getD []
          requires_wp := (findHeader "Requires at least".data fh).getD []
          requires_php := (findHeader "Requires PHP".data fh).getD []
          tested_wp := (findHeader "Tested up to".data fh).getD []
          url := (findHeader
            (if d.type = some "theme".data then "Theme URI".data else "Plugin URI".data) fh).getD []
          download := a.browser_download_url
          slug := d.slug
          basename := if d.type = some "plugin".data then some d.basename else none }

/-- The validation message for a missing or invalid entity type in revision V1. -/
def msgBadType : Str :=
  "The first URL path segment is missing a valid entity type. Must be either \x27plugins\x27 or \x27themes\x27.".data

/-- The validation message for a missing vendor segment in revision V1. -/
def msgNoVendor : Str :=
  "The second URL path segment is missing. It should contain the vendor name.".data

/-- The validation message for a missing package segment in revision V1. -/
def msgNoPackage : Str :=
  "The third URL path segment is missing. It should contain the package name.".data

/-- `handleRequest` of revision V1; an `.error` result is a value that escapes to
the event listener's catch-all. -/
def handleRequestV1 (req : Req) (rm : Remote) : Except JsThrow Outcome :=
  match rm.cached with
  | some r => .ok { response := .json r, cacheWrite := none }
  | none =>
    let d := getDataFromRequestV1 req
    if d.type ≠ some "theme".data ∧ d.type ≠ some "plugin".data then
      .ok { response := .json (getErrorResponse (some (Json.str msgBadType)) 400)
            cacheWrite := none }
    else if !jsTruthy d.vendor then
      .ok { response := .json (getErrorResponse (some (Json.str msgNoVendor)) 400)
            cacheWrite := none }
    else if !jsTruthy d.pkg then
      .ok { response := .json (getErrorResponse (some (Json.str msgNoPackage)) 400)
            cacheWrite := none }
    else
      match resolveReleasesV1 rm d with
      | .error e =>
        .ok { response := .json (getErrorResponse (jsMessage e) 404), cacheWrite := none }
      | .ok (latestRelease, release) =>
        let filePath := rawFileUrl d.vendor d.pkg release.tag_name d.file
        if rm.fileStatus filePath ≠ 200 then
          .ok { response := .json (getResponse
                  (Json.str ("Unable to fetch ".data ++ jsStr d.type ++ " file: ".data ++ filePath)) 404)
                cacheWrite := none }
        else
          let fh := getFileHeaders (rm.fileText filePath)
          match getPayloadV1 d fh latestRelease release with
          | .error e => .error e
          | .ok payload =>
            if d.isDownload then
              .ok { response := .redirect payload.download, cacheWrite := none }
            else
              .ok { response := .json (appendHeader (getResponse payload.toJson 200)
                      "Cache-Control".data "s=maxage=10".data)
                    cacheWrite := some req.url }

/-- The `addEventListener('fetch', ...)` wrapper of revision V1: uncaught
failures become `new Response(err.stack, {status: 500})`. -/
def runV1 (req : Req) (rm : Remote) : Outcome :=
  match handleRequestV1 req rm with
  | .ok o => o
  | .error e => { response := .failure e, cacheWrite := none }

/-! ## Revision Q: request parsing, release resolution, payload, handler -/

/-- The request descriptor of revision Q (`getDataFromRequest` in
`src/unnamed/part_001`). -/
structure DataQ where
  vendor : Option Str
  pkg : Option Str
  basename : Str
  slug : Str
  file : Str
  type : Str
  isTheme : Bool
  isPlugin : Bool

/-- `getDataFromRequest` of revision Q: query parameters only.  The basename
defaults to `{package}/{package}.php` and is destructured from
`basename.split('/')` into slug and file; the entity type is inferred from
`file.substring(file.lastIndexOf('.') + 1)`.  When the basename contains no `/`,
`file` is `undefined` and the extension access throws a `TypeError`. -/
def getDataFromRequestQ (req : Req) : Except JsThrow DataQ :=
  let vendor := req.query "vendor".data
  let pkg := req.query "package".data
  let basename := jsOr (req.query "basename".data)
    (jsStrNull pkg ++ ['/'] ++ jsStrNull pkg ++ ".php".data)
  match jsSplit '/' basename with
  | slug :: file :: _ =>
    let type := if substringAfterLast '.' file = "css".data
                then "theme".data else "plugin".data
    .ok { vendor := vendor
          pkg := pkg
          basename := basename
          slug := slug
          file := file
          type := type
          isTheme := type == "theme".data
          isPlugin := type == "plugin".data }
  | _ => .error .typeError

/-- The inline resolution scan of revisions V2 and Q: `data.release` is assigned
only when a release with assets is found, and stays `undefined` otherwise. -/
def scanRelease : List Release → Option Release
  | [] => none
  | r :: rs => if r.assets.length ≠ 0 then some r else scanRelease rs

/-- The response payload of revision Q, with its flat `version` string. -/
structure PayloadQ where
  name : Option Str
  type : Str
  version : Str
  description : Str
  author_name : Str
  author_url : Str
  updated : Str
  slug : Str
  basename : Option Str
  url : Option Str
  download : Str
  requires_wp : Str
  requires_php : Str
  tested_wp : Str

/-- Serialisation of the Q payload, in source assignment order. -/
def PayloadQ.toJson (p : PayloadQ) : Json :=
  Json.obj (optField "name".data (p.name.map Json.str) ++
    [("type".data, Json.str p.type),
     ("version".data, Json.str p.version),
     ("description".data, Json.str p.description),
     ("author".data, Json.obj [("name".data, Json.str p.author_name),
       ("url".data, Json.str p.author_url)]),
     ("updated".data, Json.str p.updated),
     ("slug".data, Json.str p.slug)] ++
    optField "basename".data (p.basename.map Json.str) ++
    optField "url".data (p.url.map Json.str) ++
    [("download".data, Json.str p.download),
     ("requires".data, Json.obj [("wp".data, Json.str p.requires_wp),
       ("php".data, Json.str p.requires_php)]),
     ("tested".data, Json.obj [("wp".data, Json.str p.tested_wp)])])

/-- `getPayload` of revision Q.  Note that `payload.url` has no `|| ''` default
in this revision, so it can be dropped from the serialised body. -/
def getPayloadQ (d : DataQ) (fh : List (Str × Str)) (release : Release) :
    Except JsThrow PayloadQ :=
  match release.assets with
  | [] => .error .typeError
  | a :: _ =>
    .ok { name := findHeader (if d.isTheme then "Theme Name".data else "Plugin Name".data) fh
          type := d.type
          version := (findHeader "Version".data fh).getD []
          description := (findHeader "Description".data fh).getD []
          author_name := (findHeader "Author".data fh).getD []
          author_url := (findHeader "Author URI".data fh).getD []
          updated := release.published_at.getD []
          slug := d.slug
          basename := if d.isPlugin then some d.basename else none
          url := findHeader (if d.isTheme then "Theme URI".data else "Plugin URI".data) fh
          download := a.browser_download_url
          requires_wp := (findHeader "Requires at least".data fh).getD []
          requires_php := (findHeader "Requires PHP".data fh).getD []
          tested_wp := (findHeader "Tested up to".data fh).getD [] }

/-- `handleRequest` of revision Q; an `.error` result is a value that escapes to
the event listener's catch-all. -/
def handleRequestQ (req : Req) (rm : Remote) : Except JsThrow Outcome :=
  match rm.cached with
  | some r => .ok { response := .json r, cacheWrite := none }
  | none =>
    match getDataFromRequestQ req with
    | .error e => .error e
    | .ok d =>
      if !jsTruthy d.vendor then
        .ok { response := .json (getErrorResponse
                (some (Json.str "Missing URL param: vendor".data)) 400)
              cacheWrite := none }
      else if !jsTruthy d.pkg then
        .ok { response := .json (getErrorResponse
                (some (Json.str "Missing URL param: package".data)) 400)
              cacheWrite := none }
      else if rm.listStatus ≠ 200 then
        .ok { response := .json (getResponse rm.listBody.toJson rm.listStatus)
              cacheWrite := none }
      else
        match rm.listBody with
        | .other _ =>
          .ok { response := .json (getResponse (Json.str "No releases available!".data) 404)
                cacheWrite := none }
        | .arr [] =>
          .ok { response := .json (getResponse (Json.str "No releases available!".data) 404)
                cacheWrite := none }
        | .arr (r :: rs) =>
          match scanRelease (r :: rs) with
          | none =>
            .ok { response := .json (getResponse (Json.str "No release asset found!".data) 404)
                  cacheWrite := none }
          | some release =>
            if release.assets.length = 0 then
              .ok { response := .json (getResponse (Json.str "No release asset found!".data) 404)
                    cacheWrite := none }
            else
              let filePath := rawFileUrl d.vendor d.pkg release.tag_name d.file
              if rm.fileStatus filePath ≠ 200 then
                .ok { response := .json (getResponse
                        (Json.str ("Unable to fetch ".data ++ d.type ++ " file: ".data ++ filePath)) 404)
                      cacheWrite := none }
              else
                let fh := getFileHeaders (rm.fileText filePath)
                match getPayloadQ d fh release with
                | .error e => .error e
                | .ok payload =>
                  .ok { response := .json (appendHeader (getResponse payload.toJson 200)
                          "Cache-Control".data "s=maxage=10".data)
                        cacheWrite := some req.url }

/-- The `addEventListener('fetch', ...)` wrapper of revision Q. -/
def runQ (req : Req) (rm : Remote) : Outcome :=
  match handleRequestQ req rm with
  | .ok o => o
  | .error e => { response := .failure e, cacheWrite := none }

/-! ## Properties of the string helpers -/

/-- The head surviving a `dropWhile` does not satisfy the dropped predicate. -/
theorem head?_dropWhile_false {p : Char → Bool} {l : Str} {a : Char}
    (h : (l.dropWhile p).head? = some a) : p a = false := by
  induction l with
  | nil => simp [List.dropWhile] at h
  | cons x xs ih =>
    rw [List.dropWhile_cons] at h
    by_cases hp : p x
    · simp [hp] at h
      exact ih h
    · simp [hp] at h
      simpa [h] using hp

/-- A trimmed string does not start with whitespace. -/
theorem jsTrim_head?_not_ws {s : Str} {c : Char} (h : (jsTrim s).head? = some c) :
    isJsWhitespace c = false := by
  unfold jsTrim at h
  exact head?_dropWhile_false h

/-- A trimmed string does not end with whitespace. -/
theorem jsTrim_getLast?_not_ws {s : Str} {c : Char} (h : (jsTrim s).getLast? = some c) :
    isJsWhitespace c = false := by
  unfold jsTrim at h
  set w := (s.reverse.dropWhile isJsWhitespace).reverse with hw
  obtain ⟨t, ht⟩ := List.dropWhile_suffix (l := w) isJsWhitespace
  have hne : w.dropWhile isJsWhitespace ≠ [] := by
    intro hnil
    rw [hnil] at h
    simp at h
  have hlast : w.getLast? = some c := by
    rw [← ht, List.getLast?_append_of_ne_nil t hne]
    exact h
  rw [hw, List.getLast?_reverse] at hlast
  exact head?_dropWhile_false hlast

/-- `split` never returns an empty array. -/
theorem jsSplit_ne_nil (c : Char) (s : Str) : jsSplit c s ≠ [] := by
  cases s with
  | nil => simp [jsSplit]
  | cons x xs =>
    unfold jsSplit
    by_cases h : x = c
    · simp [h]
    · rw [if_neg h]
      cases hs : jsSplit c xs <;> simp

/-- A one-field `split` result means the separator never occurred: the single
field is the whole string. -/
theorem jsSplit_singleton (c : Char) (s : Str) : ∀ t, jsSplit c s = [t] → s = t := by
  induction s with
  | nil =>
    intro t h
    simp [jsSplit] at h
    exact h.symm
  | cons x xs ih =>
    intro t h
    unfold jsSplit at h
    by_cases hx : x = c
    · rw [if_pos hx] at h
      simp at h
      exact absurd h.2 (jsSplit_ne_nil c xs)
    · rw [if_neg hx] at h
      cases hs : jsSplit c xs with
      | nil => exact absurd hs (jsSplit_ne_nil c xs)
      | cons p ps =>
        rw [hs] at h
        simp at h
        obtain ⟨h1, h2⟩ := h
        have hxs := ih p (by rw [hs, h2])
        rw [← h1, hxs]

/-- A two-field `split` result reassembles to the original string with one
separator between the fields. -/
theorem jsSplit_pair (c : Char) (s : Str) : ∀ a b, jsSplit c s = [a, b] → s = a ++ c :: b := by
  induction s with
  | nil =>
    intro a b h
    simp [jsSplit] at h
  | cons x xs ih =>
    intro a b h
    unfold jsSplit at h
    by_cases hx : x = c
    · rw [if_pos hx] at h
      simp at h
      obtain ⟨h1, h2⟩ := h
      have hxs := jsSplit_singleton c xs b h2
      subst h1
      rw [hxs, hx]
      rfl
    · rw [if_neg hx] at h
      cases hs : jsSplit c xs with
      | nil => exact absurd hs (jsSplit_ne_nil c xs)
      | cons p ps =>
        rw [hs] at h
        simp at h
        obtain ⟨h1, h2⟩ := h
        have hxs := ih p b (by rw [hs, h2])
        rw [← h1, hxs]
        rfl

/-- Splitting a string that does not contain the separator yields one field. -/
theorem jsSplit_no_sep {c : Char} {s : Str} (h : c ∉ s) : jsSplit c s = [s] := by
  induction s with
  | nil => rfl
  | cons x xs ih =>
    have hx : ¬x = c := fun he => h (he ▸ List.mem_cons_self x xs)
    have hxs : c ∉ xs := fun hm => h (List.mem_cons_of_mem x hm)
    unfold jsSplit
    rw [if_neg hx, ih hxs]

/-- A file name ending in `.css` has extension `css` under
`substring(lastIndexOf('.') + 1)`. -/
theorem substringAfterLast_css_of_suffix {f : Str}
    (h : List.IsSuffix ".css".data f) : substringAfterLast '.' f = "css".data := by
  obtain ⟨t, ht⟩ := h
  rw [← ht]
  unfold substringAfterLast
  rw [List.reverse_append]
  have hrev : ".css".data.reverse = ['s', 's', 'c', '.'] := rfl
  rw [hrev, List.cons_append, List.cons_append, List.cons_append, List.cons_append,
    List.takeWhile_cons_of_pos (by decide), List.takeWhile_cons_of_pos (by decide),
    List.takeWhile_cons_of_pos (by decide), List.takeWhile_cons_of_neg (by decide)]
  rfl

/-- A nonempty pattern has no match in the empty string. -/
theorem isPrefixOf_nil_eq_false {pat : Str} (h : pat ≠ []) :
    pat.isPrefixOf ([] : Str) = false := by
  cases pat with
  | nil => exact absurd rfl h
  | cons a as => rfl

/-- The regex model returns the capture of the *leftmost* occurrence of
`name ++ ":"`: the rest of the matched line (up to a line terminator). -/
theorem execHeader_eq_matchIndex (name : Str) (text : Str) :
    execHeader name text =
      (matchIndex (name ++ [':']) text).map
        (fun i => ((text.drop i).drop (name.length + 1)).takeWhile
          (fun c => !isLineTerminator c)) := by
  induction text with
  | nil =>
    rw [execHeader, matchIndex, isPrefixOf_nil_eq_false (by simp)]
    rfl
  | cons x xs ih =>
    rw [execHeader, matchIndex]
    by_cases hp : (name ++ [':']).isPrefixOf (x :: xs) = true
    · rw [if_pos hp, if_pos hp]
      rfl
    · rw [if_neg hp, if_neg hp, ih, Option.map_map]
      congr 1

/-- Lookup stays in the left part of an appended association list when it hits. -/
theorem findHeader_append_some {k : Str} {l₁ l₂ : List (Str × Str)} {v : Str}
    (h : findHeader k l₁ = some v) : findHeader k (l₁ ++ l₂) = some v := by
  induction l₁ with
  | nil => simp [findHeader] at h
  | cons p rest ih =>
    obtain ⟨k', v'⟩ := p
    rw [List.cons_append, findHeader]
    rw [findHeader] at h
    by_cases hk : k' = k
    · rw [if_pos hk] at h ⊢
      exact h
    · rw [if_neg hk] at h ⊢
      exact ih h

/-- Lookup falls through to the right part of an appended association list when
the left part misses. -/
theorem findHeader_append_none {k : Str} {l₁ l₂ : List (Str × Str)}
    (h : findHeader k l₁ = none) : findHeader k (l₁ ++ l₂) = findHeader k l₂ := by
  induction l₁ with
  | nil => rfl
  | cons p rest ih =>
    obtain ⟨k', v'⟩ := p
    rw [findHeader] at h
    by_cases hk : k' = k
    · rw [if_pos hk] at h
      exact absurd h (by simp)
    · rw [if_neg hk] at h
      rw [List.cons_append, findHeader, if_neg hk]
      exact ih h

/-- Characterisation of the `getFileHeaders` accumulation loop: looking up a key
yields the accumulator's value first, and otherwise the trimmed capture of that
key's own regex, if the key is scanned and its regex matches. -/
theorem findHeader_buildHeaders (names : List Str) (text : Str)
    (acc : List (Str × Str)) (k : Str) :
    findHeader k (buildHeaders names text acc) =
      match findHeader k acc with
      | some v => some v
      | none => if k ∈ names then (execHeader k text).map jsTrim else none := by
  induction names generalizing acc with
  | nil =>
    rw [buildHeaders]
    cases findHeader k acc <;> simp
  | cons n rest ih =>
    rw [buildHeaders]
    cases he : execHeader n text with
    | none =>
      rw [ih]
      cases hacc : findHeader k acc with
      | some v => rfl
      | none =>
        by_cases hk : k = n
        · subst hk
          simp [he]
        · simp only [List.mem_cons, hk, false_or]
    | some c =>
      rw [ih]
      cases hacc : findHeader k acc with
      | some v =>
        rw [findHeader_append_some hacc]
      | none =>
        rw [findHeader_append_none hacc]
        by_cases hk : k = n
        · subst hk
          simp [findHeader, he]
        · have hnk : ¬(n = k) := fun he' => hk he'.symm
          simp [findHeader, hnk, List.mem_cons, hk]

/-- Every entry produced by the `getFileHeaders` loop either was already in the
accumulator, or is the trimmed capture of a scanned header name. -/
theorem mem_buildHeaders {names : List Str} {text : Str} {acc : List (Str × Str)}
    {k v : Str} (h : (k, v) ∈ buildHeaders names text acc) :
    (k, v) ∈ acc ∨ (k ∈ names ∧ ∃ c, execHeader k text = some c ∧ v = jsTrim c) := by
  induction names generalizing acc with
  | nil =>
    rw [buildHeaders] at h
    exact Or.inl h
  | cons n rest ih =>
    rw [buildHeaders] at h
    cases he : execHeader n text with
    | none =>
      rw [he] at h
      rcases ih h with h1 | ⟨h2, c, hc, hv⟩
      · exact Or.inl h1
      · exact Or.inr ⟨List.mem_cons_of_mem _ h2, c, hc, hv⟩
    | some c =>
      rw [he] at h
      rcases ih h with h1 | ⟨h2, c', hc, hv⟩
      · rcases List.mem_append.mp h1 with ha | hb
        · exact Or.inl ha
        · simp only [List.mem_singleton, Prod.mk.injEq] at hb
          obtain ⟨hk, hv⟩ := hb
          exact Or.inr ⟨by simp [hk], c, by rw [hk]; exact he, hv⟩
      · exact Or.inr ⟨List.mem_cons_of_mem _ h2, c', hc, hv⟩

/-- The scan loop of `getLatestRelease` always picks a release from a non-empty
list (the loop variable retains the last element when no release has assets). -/
theorem scanLoopV1_isSome (l : List Release) (h : l ≠ []) :
    ∃ r, scanLoopV1 l = some r := by
  induction l with
  | nil => exact absurd rfl h
  | cons r rs ih =>
    cases rs with
    | nil => exact ⟨r, rfl⟩
    | cons r2 rs' =>
      by_cases ha : r.assets.length ≠ 0
      · exact ⟨r, by simp [scanLoopV1, ha]⟩
      · obtain ⟨x, hx⟩ := ih (by simp)
        exact ⟨x, by simp only [scanLoopV1, if_neg ha]; exact hx⟩

/-- As long as some release has assets, the scan loop of `getLatestRelease`
agrees with first-match search: it returns the first release with a non-empty
asset list, in list order.  (The two only disagree when no release qualifies.) -/
theorem scanLoopV1_eq_find?_of_exists {l : List Release}
    (h : ∃ r ∈ l, r.assets.length ≠ 0) :
    scanLoopV1 l = l.find? (fun r => r.assets.length != 0) := by
  induction l with
  | nil =>
    obtain ⟨r, hr, -⟩ := h
    exact absurd hr (List.not_mem_nil r)
  | cons a as ih =>
    by_cases ha : a.assets.length ≠ 0
    · cases as with
      | nil => simp [scanLoopV1, List.find?_cons_of_pos, ha]
      | cons b bs => simp [scanLoopV1, List.find?_cons_of_pos, ha]
    · have has : ∃ r ∈ as, r.assets.length ≠ 0 := by
        obtain ⟨r, hr, hr2⟩ := h
        rcases List.mem_cons.mp hr with rfl | hmem
        · exact absurd hr2 ha
        · exact ⟨r, hmem, hr2⟩
      cases as with
      | nil =>
        obtain ⟨r, hr, -⟩ := has
        exact absurd hr (List.not_mem_nil r)
      | cons b bs =>
        rw [List.find?_cons_of_neg _ (by simpa using ha)]
        rw [← ih has]
        simp [scanLoopV1, ha]

/-- Inversion for the query-based parser: a successful parse destructures the
basename's `split('/')` into slug, file and ignored remainder, and infers the
type from the file component's extension. -/
theorem getDataFromRequestQ_ok {req : Req} {d : DataQ}
    (h : getDataFromRequestQ req = .ok d) :
    ∃ rest, jsSplit '/' d.basename = d.slug :: d.file :: rest ∧
      d.type = (if substringAfterLast '.' d.file = "css".data
        then "theme".data else "plugin".data) := by
  simp only [getDataFromRequestQ] at h
  cases hs : jsSplit '/' (jsOr (req.query "basename".data)
      (jsStrNull (req.query "package".data) ++ ['/'] ++
        jsStrNull (req.query "package".data) ++ ".php".data)) with
  | nil =>
    rw [hs] at h
    exact absurd h (by simp)
  | cons s rest1 =>
    cases rest1 with
    | nil =>
      rw [hs] at h
      exact absurd h (by simp)
    | cons f rest =>
      rw [hs] at h
      simp only [Except.ok.injEq] at h
      subst h
      exact ⟨rest, hs, rfl⟩

/-! ## Concrete fixtures used by the claims -/

/-- A release carrying no asset. -/
def releaseNoAsset : Release :=
  { tag_name := "v1.0".data
    published_at := some "2021-01-01T00:00:00Z".data
    assets := [] }

/-- A release carrying one asset. -/
def releaseWithAsset : Release :=
  { tag_name := "v2.0".data
    published_at := some "2021-05-11T22:23:45Z".data
    assets := [{ browser_download_url :=
      "https://github.com/acme/widget/releases/download/v2.0/widget.zip".data }] }

/-- A path-based request for the latest plugin release (revision V1 form). -/
def reqPluginNoVersion : Req :=
  { url := "https://api.example.com/plugins/acme/widget".data
    pathname := "/plugins/acme/widget".data
    query := fun _ => none }

/-- A path-based request for explicit plugin version `v1.0` (revision V1 form). -/
def reqPluginV10 : Req :=
  { url := "https://api.example.com/plugins/acme/widget/v1.0".data
    pathname := "/plugins/acme/widget/v1.0".data
    query := fun _ => none }

/-- A query-based request (revision Q form) carrying vendor and package. -/
def reqQueryAcme : Req :=
  { url := "https://api.example.com/?vendor=acme&package=widget".data
    pathname := ['/']
    query := fun k =>
      if k = "vendor".data then some "acme".data
      else if k = "package".data then some "widget".data
      else none }

/-- The descriptor `reqQueryAcme` parses to. -/
def dataQAcme : DataQ :=
  { vendor := some "acme".data
    pkg := some "widget".data
    basename := "widget/widget.php".data
    slug := "widget".data
    file := "widget.php".data
    type := "plugin".data
    isTheme := false
    isPlugin := true }

/-- A query-based request whose `basename` parameter contains two slashes. -/
def reqBasenameTwoSlashes : Req :=
  { url := "https://api.example.com/?basename=a/b/c".data
    pathname := ['/']
    query := fun k => if k = "basename".data then some "a/b/c".data else none }

/-- A query-based request whose `basename` file component is a dotless `css`. -/
def reqBasenameDotlessCss : Req :=
  { url := "https://api.example.com/?basename=a/css".data
    pathname := ['/']
    query := fun k => if k = "basename".data then some "a/css".data else none }

/-- A query-based request for a theme stylesheet basename. -/
def reqBasenameStyle : Req :=
  { url := "https://api.example.com/?basename=mytheme/style.css".data
    pathname := ['/']
    query := fun k => if k = "basename".data then some "mytheme/style.css".data else none }

/-- The descriptor `reqBasenameStyle` parses to. -/
def dataQStyle : DataQ :=
  { vendor := none
    pkg := none
    basename := "mytheme/style.css".data
    slug := "mytheme".data
    file := "style.css".data
    type := "theme".data
    isTheme := true
    isPlugin := false }

/-- A query-based request whose `basename` parameter has no `/` separator. -/
def reqBasenameNoSlash : Req :=
  { url := "https://api.example.com/?basename=style.css".data
    pathname := ['/']
    query := fun k => if k = "basename".data then some "style.css".data else none }

/-- A path-based request overriding both `slug` and `file` query parameters. -/
def reqSlugFileOverride : Req :=
  { url := "https://api.example.com/plugins/acme/widget?slug=widget-pro&file=main.php".data
    pathname := "/plugins/acme/widget".data
    query := fun k =>
      if k = "slug".data then some "widget-pro".data
      else if k = "file".data then some "main.php".data
      else none }

/-- A remote whose repository has exactly one release, which has no asset; the
raw-content endpoint serves an empty file. -/
def remoteOnlyAssetless : Remote :=
  { cached := none
    listStatus := 200
    listBody := .arr [releaseNoAsset]
    tagStatus := fun _ => 404
    tagBody := fun _ => .other Json.null
    fileStatus := fun _ => 200
    fileText := fun _ => [] }

/-- The error body a failing remote API answers with. -/
def upstreamErrorBody : Json :=
  Json.obj [("message".data, Json.str "API rate limit exceeded".data)]

/-- A remote whose release endpoints fail with status 500 and an error body. -/
def remoteUpstream500 : Remote :=
  { cached := none
    listStatus := 500
    listBody := .other upstreamErrorBody
    tagStatus := fun _ => 500
    tagBody := fun _ => .other upstreamErrorBody
    fileStatus := fun _ => 404
    fileText := fun _ => [] }

/-- A remote whose repository has no releases at all. -/
def remoteNoReleases : Remote :=
  { cached := none
    listStatus := 200
    listBody := .arr []
    tagStatus := fun _ => 404
    tagBody := fun _ => .other Json.null
    fileStatus := fun _ => 404
    fileText := fun _ => [] }

/-- A remote with one healthy release whose tag endpoint knows `v2.0` and whose
raw-content endpoint serves a plugin file with headers. -/
def remoteOneGoodRelease : Remote :=
  { cached := none
    listStatus := 200
    listBody := .arr [releaseWithAsset]
    tagStatus := fun v => if v = "v2.0".data then 200 else 404
    tagBody := fun v => if v = "v2.0".data then .release releaseWithAsset else .other Json.null
    fileStatus := fun _ => 200
    fileText := fun _ => "Plugin Name: Widget\nVersion: 2.0\n".data }

/-- A remote with a non-empty release list whose tag endpoint answers `v1.0`
with the asset-less release. -/
def remoteTagAssetless : Remote :=
  { cached := none
    listStatus := 200
    listBody := .arr [releaseNoAsset]
    tagStatus := fun v => if v = "v1.0".data then 200 else 404
    tagBody := fun v => if v = "v1.0".data then .release releaseNoAsset else .other Json.null
    fileStatus := fun _ => 200
    fileText := fun _ => [] }

/-- Demonstration file text containing a `Version` header line with trailing
whitespace. -/
def demoFileText : Str :=
  "/*\nPlugin Name: Demo\nVersion: 1.2.3   \n*/\n".data

/-! ## The claims -/

/-- C1: with a non-empty release list in which no release has an asset, the V1
resolver does not fail with the 404 `No releases have release assets!` error:
after the scan loop the loop variable retains the last (asset-less) release and
`if (!release)` is false for that object, so `getLatestRelease` returns the
asset-less release; the request then dies with a `TypeError` in `getPayload`
(a 500 from the catch-all), while the inline scan of the later revisions answers
404 for the same remote state. -/
theorem c1_assetless_release_returned_not_404 :
    getLatestRelease remoteOnlyAssetless = .ok releaseNoAsset ∧
    releaseNoAsset.assets = [] ∧
    (runV1 reqPluginNoVersion remoteOnlyAssetless).response = .failure .typeError ∧
    (runV1 reqPluginNoVersion remoteOnlyAssetless).response.status = 500 ∧
    (runQ reqQueryAcme remoteOnlyAssetless).response =
      .json (getResponse (Json.str "No release asset found!".data) 404) :=
  ⟨rfl, rfl, rfl, rfl, rfl⟩

/-- C2: when the remote release-list call answers 500, revision V1's
`handleRequest` catches the proxied throw and replies with status 404 — the
upstream status is replaced and only the body's `message` field survives —
although the inline revisions (Q shown) proxy the upstream status and body
unchanged, as the `Proxy error response` comment in `getLatestRelease` intends. -/
theorem c2_upstream_status_replaced_with_404 :
    (runV1 reqPluginNoVersion remoteUpstream500).response =
      .json (getErrorResponse (some (Json.str "API rate limit exceeded".data)) 404) ∧
    (runV1 reqPluginNoVersion remoteUpstream500).response.status = 404 ∧
    (runQ reqQueryAcme remoteUpstream500).response =
      .json (getResponse upstreamErrorBody 500) ∧
    (runQ reqQueryAcme remoteUpstream500).response.status = 500 :=
  ⟨rfl, rfl, rfl, rfl⟩

/-- C3 counterexample: with zero releases the handler answers 404, but the JSON
body is the bare string `"No releases available!"` — `getResponse` is called with
a plain string — not the claimed `{"status": "error", "message": "No releases
available!"}` object. -/
theorem c3_counterexample_body_is_bare_string :
    (runQ reqQueryAcme remoteNoReleases).response =
      .json (getResponse (Json.str "No releases available!".data) 404) ∧
    Json.str "No releases available!".data ≠
      Json.obj [("status".data, Json.str "error".data),
        ("message".data, Json.str "No releases available!".data)] :=
  ⟨rfl, fun h => Json.noConfusion h⟩

/-- C3 (amended): a valid request whose repository has zero releases (empty or
non-array release list) is answered with status 404; the body is the JSON string
`"No releases available!"` in the inline revisions (Q shown), and the object
`{"status": "error"}` with no `message` field in revision V1, whose catch reads
`.message` off the thrown string, which is `undefined`. -/
theorem c3_no_releases_yields_404 :
    (∀ (req : Req) (rm : Remote) (d : DataQ),
      rm.cached = none →
      getDataFromRequestQ req = .ok d →
      jsTruthy d.vendor = true →
      jsTruthy d.pkg = true →
      rm.listStatus = 200 →
      (rm.listBody = .arr [] ∨ ∃ j, rm.listBody = .other j) →
      (runQ req rm).response =
        .json (getResponse (Json.str "No releases available!".data) 404)) ∧
    (∀ (req : Req) (rm : Remote),
      rm.cached = none →
      ((getDataFromRequestV1 req).type = some "plugin".data ∨
        (getDataFromRequestV1 req).type = some "theme".data) →
      jsTruthy (getDataFromRequestV1 req).vendor = true →
      jsTruthy (getDataFromRequestV1 req).pkg = true →
      rm.listStatus = 200 →
      (rm.listBody = .arr [] ∨ ∃ j, rm.listBody = .other j) →
      (runV1 req rm).response = .json (getErrorResponse none 404)) := by
  constructor
  · intro req rm d hc hd hv hp hs hb
    rcases hb with hb | ⟨j, hb⟩ <;>
      simp [runQ, handleRequestQ, hc, hd, hv, hp, hs, hb]
  · intro req rm hc hty hv hp hs hb
    have hlatest : getLatestRelease rm = .error (.str "No releases available!".data) := by
      rcases hb with hb | ⟨j, hb⟩ <;> simp [getLatestRelease, hs, hb]
    rcases hty with h | h <;>
      simp [runV1, handleRequestV1, hc, h, hv, hp, resolveReleasesV1, hlatest, jsMessage]

/-- Witness for C3 (amended): a concrete valid query-based request against a
repository with an empty release list. -/
theorem c3_no_releases_yields_404_witness :
    (runQ reqQueryAcme remoteNoReleases).response =
      .json (getResponse (Json.str "No releases available!".data) 404) :=
  c3_no_releases_yields_404.1 reqQueryAcme remoteNoReleases dataQAcme
    rfl rfl rfl rfl rfl (Or.inl rfl)

/-- C4: for a request carrying an explicit (truthy) version, revision V1
resolves through the tag endpoint of exactly that version: when the remote
answers 200 with release `R`, the resolver yields `R` when it has an asset, and
when `R` has no asset the whole request is answered with status 404. -/
theorem c4_explicit_version_resolution (req : Req) (rm : Remote)
    (v : Str) (R : Release) (rs : List Release)
    (hc : rm.cached = none)
    (hty : (getDataFromRequestV1 req).type = some "plugin".data ∨
      (getDataFromRequestV1 req).type = some "theme".data)
    (hv : jsTruthy (getDataFromRequestV1 req).vendor = true)
    (hp : jsTruthy (getDataFromRequestV1 req).pkg = true)
    (hver : (getDataFromRequestV1 req).version = some v)
    (hvne : v ≠ [])
    (hls : rm.listStatus = 200)
    (hlb : rm.listBody = .arr rs)
    (hrs : rs ≠ [])
    (hts : rm.tagStatus v = 200)
    (htb : rm.tagBody v = .release R) :
    (R.assets ≠ [] →
      ∃ latest, resolveReleasesV1 rm (getDataFromRequestV1 req) = .ok (latest, R)) ∧
    (R.assets = [] → (runV1 req rm).response.status = 404) := by
  obtain ⟨latest, hlatest⟩ := scanLoopV1_isSome rs hrs
  have hgl : getLatestRelease rm = .ok latest := by
    cases rs with
    | nil => exact absurd rfl hrs
    | cons a as => simp [getLatestRelease, hls, hlb, hlatest]
  have hvt : jsTruthy (some v) = true := by
    cases v with
    | nil => exact absurd rfl hvne
    | cons c cs => rfl
  constructor
  · intro hR
    refine ⟨latest, ?_⟩
    simp [resolveReleasesV1, hgl, hver, hvt, jsStr, getRelease, hts, htb,
      List.length_eq_zero, hR]
  · intro hR
    have hgr : getRelease rm v =
        .error (.str ("Release ".data ++ v ++ " doesn\x27t have a release asset!".data)) := by
      simp [getRelease, hts, htb, hR]
    rcases hty with h | h <;>
      simp [runV1, handleRequestV1, hc, h, hv, hp, resolveReleasesV1, hgl, hver, hvt,
        jsStr, hgr, jsMessage, WResponse.status, getErrorResponse, getResponse]

/-- Witness for C4: a concrete request for version `v1.0` whose tagged release
has no asset; the response status is 404. -/
theorem c4_explicit_version_resolution_witness :
    (releaseNoAsset.assets ≠ [] →
      ∃ latest, resolveReleasesV1 remoteTagAssetless (getDataFromRequestV1 reqPluginV10) =
        .ok (latest, releaseNoAsset)) ∧
    (releaseNoAsset.assets = [] →
      (runV1 reqPluginV10 remoteTagAssetless).response.status = 404) :=
  c4_explicit_version_resolution reqPluginV10 remoteTagAssetless "v1.0".data
    releaseNoAsset [releaseNoAsset] rfl (Or.inl rfl) rfl rfl rfl (by decide)
    rfl rfl (by decide) rfl rfl

/-- C5 counterexample: in the query-based revision, `basename=a/b/c` parses to
`slug = "a"` and `file = "b"`, whose reassembly `"a/b"` differs from the
basename, so the descriptor's basename is not reconstructable from its slug and
file fields. -/
theorem c5_counterexample_two_slash_basename :
    (match getDataFromRequestQ reqBasenameTwoSlashes with
      | .ok d => some (d.basename, d.slug ++ '/' :: d.file)
      | .error _ => none) = some ("a/b/c".data, "a/b".data) ∧
    "a/b".data ≠ "a/b/c".data :=
  ⟨rfl, by decide⟩

/-- C5 (amended): in the path-based revision a request supplying non-empty
`slug=S` and `file=F` query parameters yields `basename = "{S}/{F}"`, and the
invariant `basename = slug + "/" + file` always holds there; in the query-based
revision, where `basename` itself is the input, the reassembly
`slug + "/" + file` recovers it exactly when the basename splits into exactly
two fields (one `/` separator). -/
theorem c5_basename_reconstruction :
    (∀ (req : Req) (S F : Str), S ≠ [] → F ≠ [] →
      req.query "slug".data = some S → req.query "file".data = some F →
      (getDataFromRequestV1 req).basename = S ++ '/' :: F) ∧
    (∀ req : Req, (getDataFromRequestV1 req).basename =
      jsStr (getDataFromRequestV1 req).slug ++ '/' :: (getDataFromRequestV1 req).file) ∧
    (∀ (req : Req) (d : DataQ), getDataFromRequestQ req = .ok d →
      (jsSplit '/' d.basename).length = 2 → d.basename = d.slug ++ '/' :: d.file) := by
  refine ⟨?_, ?_, ?_⟩
  · intro req S F hS hF hqs hqf
    have htS : jsTruthy (some S) = true := by
      cases S with
      | nil => exact absurd rfl hS
      | cons x xs => rfl
    have htF : jsTruthy (some F) = true := by
      cases F with
      | nil => exact absurd rfl hF
      | cons x xs => rfl
    simp [getDataFromRequestV1, hqs, hqf, htS, htF, jsOr, jsStr]
  · intro req
    simp [getDataFromRequestV1]
  · intro req d hd hlen
    obtain ⟨rest, hs, -⟩ := getDataFromRequestQ_ok hd
    have hrest : rest = [] := by
      rw [hs] at hlen
      simpa using hlen
    subst hrest
    exact jsSplit_pair '/' d.basename d.slug d.file hs

/-- Witness for C5 (amended): concrete slug and file overrides on a path-based
request produce the concatenated basename. -/
theorem c5_basename_reconstruction_witness :
    (getDataFromRequestV1 reqSlugFileOverride).basename =
      "widget-pro".data ++ '/' :: "main.php".data :=
  c5_basename_reconstruction.1 reqSlugFileOverride "widget-pro".data "main.php".data
    (by decide) (by decide) rfl rfl

/-- C6: looking a known header name up in the parsed map yields exactly the
whitespace-trimmed remainder of the line of the *leftmost* `{HeaderName}:`
occurrence, and no entry at all when there is no occurrence; in particular a
`Version: 1.2.3   ` line (trailing whitespace) parses to exactly `1.2.3`. -/
theorem c6_header_extraction_first_match_trimmed :
    (∀ (text name : Str), name ∈ headerNames →
      findHeader name (getFileHeaders text) =
        (matchIndex (name ++ [':']) text).map
          (fun i => jsTrim (((text.drop i).drop (name.length + 1)).takeWhile
            (fun c => !isLineTerminator c)))) ∧
    findHeader "Version".data (getFileHeaders demoFileText) = some "1.2.3".data := by
  constructor
  · intro text name hmem
    have hb := findHeader_buildHeaders headerNames text [] name
    simp only [findHeader] at hb
    rw [if_pos hmem] at hb
    show findHeader name (buildHeaders headerNames text []) = _
    rw [hb, execHeader_eq_matchIndex, Option.map_map]
    rfl
  · decide

/-- Witness for C6: the general first-match characterisation applied to the
demonstration text and the `Version` header. -/
theorem c6_header_extraction_first_match_trimmed_witness :
    findHeader "Version".data (getFileHeaders demoFileText) =
      (matchIndex ("Version".data ++ [':']) demoFileText).map
        (fun i => jsTrim (((demoFileText.drop i).drop ("Version".data.length + 1)).takeWhile
          (fun c => !isLineTerminator c))) :=
  c6_header_extraction_first_match_trimmed.1 demoFileText "Version".data (by decide)

/-- C7 counterexample: `basename=a/css` is classified as a theme — the file
component `css` has no dot, so `substring(lastIndexOf('.') + 1)` is the whole
component — although the basename does not end in `.css`. -/
theorem c7_counterexample_dotless_css_file :
    (match getDataFromRequestQ reqBasenameDotlessCss with
      | .ok d => some d.type
      | .error _ => none) = some "theme".data ∧
    ".css".data.isSuffixOf "a/css".data = false :=
  ⟨rfl, by decide⟩

/-- C7 (amended): the query-based parser classifies a request as a theme exactly
when the *file component* of the basename has extension `css` under
`substring(lastIndexOf('.') + 1)` (the whole component when it has no dot), and
as a plugin otherwise; any file component ending in `.css` is a theme, but the
classification is not equivalent to the basename ending in `.css`. -/
theorem c7_type_inference_from_file_extension (req : Req) (d : DataQ)
    (h : getDataFromRequestQ req = .ok d) :
    (d.type = "theme".data ↔ substringAfterLast '.' d.file = "css".data) ∧
    (d.type = "plugin".data ↔ ¬substringAfterLast '.' d.file = "css".data) ∧
    (List.IsSuffix ".css".data d.file → d.type = "theme".data) := by
  obtain ⟨rest, -, hty⟩ := getDataFromRequestQ_ok h
  by_cases hcss : substringAfterLast '.' d.file = "css".data
  · rw [hty, if_pos hcss]
    exact ⟨iff_of_true rfl hcss, iff_of_false (by decide) (not_not_intro hcss),
      fun _ => rfl⟩
  · rw [hty, if_neg hcss]
    refine ⟨iff_of_false (by decide) hcss, iff_of_true rfl hcss, ?_⟩
    intro hsuf
    exact absurd (substringAfterLast_css_of_suffix hsuf) hcss

/-- Witness for C7 (amended): the stylesheet basename `mytheme/style.css`
parses as a theme. -/
theorem c7_type_inference_from_file_extension_witness :
    (dataQStyle.type = "theme".data ↔
      substringAfterLast '.' dataQStyle.file = "css".data) ∧
    (dataQStyle.type = "plugin".data ↔
      ¬substringAfterLast '.' dataQStyle.file = "css".data) ∧
    (List.IsSuffix ".css".data dataQStyle.file → dataQStyle.type = "theme".data) :=
  c7_type_inference_from_file_extension reqBasenameStyle dataQStyle rfl

/-- C8: a successful non-download request is answered 200 with content type
`application/json` and the outcome is persisted to the cache keyed by the full
request URL, but the appended cache header's literal value is `s=maxage=10`,
which is not the valid `s-maxage=10` shared-cache directive the spec states. -/
theorem c8_cache_header_literal_is_malformed :
    (match (runQ reqQueryAcme remoteOneGoodRelease).response with
      | .json r => some r.headers
      | _ => none) =
      some [("Content-Type".data, "application/json".data),
        ("Cache-Control".data, "s=maxage=10".data)] ∧
    (runQ reqQueryAcme remoteOneGoodRelease).response.status = 200 ∧
    (runQ reqQueryAcme remoteOneGoodRelease).cacheWrite = some reqQueryAcme.url ∧
    (match (runV1 reqPluginNoVersion remoteOneGoodRelease).response with
      | .json r => some r.headers
      | _ => none) =
      some [("Content-Type".data, "application/json".data),
        ("Cache-Control".data, "s=maxage=10".data)] ∧
    (runV1 reqPluginNoVersion remoteOneGoodRelease).response.status = 200 ∧
    (runV1 reqPluginNoVersion remoteOneGoodRelease).cacheWrite =
      some reqPluginNoVersion.url ∧
    "s=maxage=10".data ≠ "s-maxage=10".data :=
  ⟨rfl, rfl, rfl, rfl, rfl, rfl, by decide⟩

/-- C9: a query-based request whose `basename` has no `/` separator makes
`getDataFromRequest` throw — `split('/')` yields one field, `data.file` is
`undefined`, and the extension access is a `TypeError` — so the event listener's
catch-all answers 500, never the 400 validation path. -/
theorem c9_slashless_basename_is_500 (req : Req) (rm : Remote) (b : Str)
    (hc : rm.cached = none)
    (hb : req.query "basename".data = some b)
    (hne : b ≠ [])
    (hsl : '/' ∉ b) :
    (runQ req rm).response = .failure .typeError ∧
    (runQ req rm).response.status = 500 := by
  have htruthy : jsTruthy (some b) = true := by
    cases b with
    | nil => exact absurd rfl hne
    | cons x xs => rfl
  have hdata : getDataFromRequestQ req = .error .typeError := by
    simp only [getDataFromRequestQ, hb]
    rw [show jsOr (some b) (jsStrNull (req.query "package".data) ++ ['/'] ++
        jsStrNull (req.query "package".data) ++ ".php".data) = b from by
          simp [jsOr, htruthy]]
    rw [jsSplit_no_sep hsl]
  have hrun : runQ req rm = { response := .failure .typeError, cacheWrite := none } := by
    simp [runQ, handleRequestQ, hc, hdata]
  rw [hrun]
  exact ⟨rfl, rfl⟩

/-- Witness for C9: the concrete request `basename=style.css` is answered 500. -/
theorem c9_slashless_basename_is_500_witness :
    (runQ reqBasenameNoSlash remoteNoReleases).response = .failure .typeError ∧
    (runQ reqBasenameNoSlash remoteNoReleases).response.status = 500 :=
  c9_slashless_basename_is_500 reqBasenameNoSlash remoteNoReleases "style.css".data
    rfl rfl (by decide) (by decide)

/-- C10: every entry of the parsed header map has its key in the fixed whitelist
of 15 header names, and its value neither starts nor ends with whitespace. -/
theorem c10_header_map_keys_and_trimming (text k v : Str)
    (h : (k, v) ∈ getFileHeaders text) :
    k ∈ headerNames ∧
    (∀ c, v.head? = some c → isJsWhitespace c = false) ∧
    (∀ c, v.getLast? = some c → isJsWhitespace c = false) := by
  rcases mem_buildHeaders (h : (k, v) ∈ buildHeaders headerNames text [])
    with h1 | ⟨hk, c, -, hv⟩
  · exact absurd h1 (List.not_mem_nil _)
  · subst hv
    exact ⟨hk, fun c' hc' => jsTrim_head?_not_ws hc',
      fun c' hc' => jsTrim_getLast?_not_ws hc'⟩

/-- Witness for C10: the `Version` entry parsed out of the demonstration text. -/
theorem c10_header_map_keys_and_trimming_witness :
    "Version".data ∈ headerNames ∧
    (∀ c, "1.2.3".data.head? = some c → isJsWhitespace c = false) ∧
    (∀ c, "1.2.3".data.getLast? = some c → isJsWhitespace c = false) :=
  c10_header_map_keys_and_trimming demoFileText "Version".data "1.2.3".data (by decide)

end WpRelease
